import Mathlib

/-!
Verification of the documentation-extraction pipeline of
`rag-eval-technical-docs` (scripts/download_docs.py, scripts/converters/*,
scripts/extractors/*).

Strings are modelled as `List Char`.  The regex substitutions of
`converters/mdx.py` and the regex searches of
`extractors/git_clone.py` are embedded as dedicated scanners that follow the
Python `re` semantics of the exact patterns appearing in the source
(leftmost match, greedy/lazy quantifiers with backtracking, `re.MULTILINE`
anchoring, `re.DOTALL` where the source sets it).  Character classes are the
ASCII classes the patterns spell out; `\s` and `str.strip` are modelled by the
ASCII whitespace set (the Unicode-only whitespace of Python's `str` semantics
is outside the inputs considered here).

Scanners that advance through the string by at least one character per step
are written with an explicit step counter (`fuel`) of `length + 1`, which is
always sufficient: every recursive call consumes at least one character of the
remaining input, so the counter never reaches zero before the input is
exhausted.  This keeps every definition computable by kernel reduction.
-/

set_option autoImplicit false
set_option maxRecDepth 4000

namespace RagEval

/-- ASCII whitespace: what the regex class `\s` and `str.strip()` treat as
whitespace on ASCII input (space, tab, newline, carriage return, vertical tab,
form feed). -/
def isSpace (c : Char) : Bool :=
  c = ' ' || c = '\t' || c = '\n' || c = '\r' || c = '\x0b' || c = '\x0c'

/-- The character class `[A-Z]` of the JSX tag patterns. -/
def isUpperAZ (c : Char) : Bool :=
  'A' ≤ c && c ≤ 'Z'

/-- The character class `[a-zA-Z0-9]` of the JSX tag-name patterns. -/
def isAlnumAZ (c : Char) : Bool :=
  ('a' ≤ c && c ≤ 'z') || ('A' ≤ c && c ≤ 'Z') || ('0' ≤ c && c ≤ '9')

/-- One attempted match of `^kw\s+.*$` (`re.MULTILINE`) at a line start.
`kw` must be literally present, followed by at least one whitespace
character.  `\s+` is greedy and may cross newlines; after the maximal
whitespace run, `.*` (which cannot cross a newline) greedily extends to the
end of the line it lands in, where `$` always holds, so no backtracking ever
changes the match.  Returns the suffix of the string after the match. -/
def stmtMatch (kw : List Char) (s : List Char) : Option (List Char) :=
  if kw.isPrefixOf s then
    match s.drop kw.length with
    | [] => none
    | c :: t =>
      if isSpace c then
        some (((c :: t).dropWhile isSpace).dropWhile (fun d => d != '\n'))
      else none
  else none

/-- The scanner of `re.sub(pattern, "", content)` for the import/export
statement patterns: characters outside matches are kept, matches are dropped,
and scanning resumes after each match.  The Bool tracks whether the current
position is a line start (`^` under `re.MULTILINE`); a match never ends
immediately after a newline (its final `.*$` stops before one), so the
position after a match is never a line start. -/
def subStmtGo (kw : List Char) : Nat → Bool → List Char → List Char
  | 0, _, s => s
  | _ + 1, _, [] => []
  | fuel + 1, atStart, c :: rest =>
    if atStart then
      match stmtMatch kw (c :: rest) with
      | some r => subStmtGo kw fuel false r
      | none => c :: subStmtGo kw fuel (c == '\n') rest
    else c :: subStmtGo kw fuel (c == '\n') rest

/-- `re.sub(r"^kw\s+.*$", "", s, flags=re.MULTILINE)` for a literal keyword. -/
def subStmt (kw : List Char) (s : List Char) : List Char :=
  subStmtGo kw (s.length + 1) true s

/-- The keyword of `_IMPORT_STATEMENT`. -/
def impKw : List Char := "import".toList

/-- The keyword of `_EXPORT_STATEMENT`. -/
def expKw : List Char := "export".toList

/-- One attempted match of the self-closing-tag pattern
`<[A-Z][a-zA-Z0-9]*\s*[^>]*/\s*>` at the current position.  No piece of the
pattern after `<` can match `>`, so the closing `>` of a match is necessarily
the first `>` after the opening `<`; the characters strictly between the
uppercase first letter and that `>`, after removing trailing whitespace
(`\s*`), must end in `/` — the leading `[a-zA-Z0-9]*\s*` can always be taken
empty because `[^>]*` absorbs anything.  Returns the suffix after the `>`. -/
def scMatch : List Char → Option (List Char)
  | a :: c :: rest =>
    if a = '<' && isUpperAZ c then
      match rest.dropWhile (fun d => d != '>') with
      | _ :: r =>
        match (rest.takeWhile (fun d => d != '>')).reverse.dropWhile isSpace with
        | s :: _ => if s = '/' then some r else none
        | [] => none
      | [] => none
    else none
  | _ => none

/-- The scanner of `re.sub(_SELF_CLOSING_TAG, "", s)`. -/
def subSelfClosingGo : Nat → List Char → List Char
  | 0, s => s
  | _ + 1, [] => []
  | fuel + 1, c :: rest =>
    match scMatch (c :: rest) with
    | some r => subSelfClosingGo fuel r
    | none => c :: subSelfClosingGo fuel rest

/-- `re.sub(r"<[A-Z][a-zA-Z0-9]*\s*[^>]*/\s*>", "", s)`. -/
def subSelfClosing (s : List Char) : List Char :=
  subSelfClosingGo (s.length + 1) s

/-- The first occurrence of `needle` (always nonempty where used) as a
contiguous substring: the part strictly before the occurrence and the part
strictly after it.  This is the lazy `(.*?)` search (with `re.DOTALL`) for the
closing tag: the shortest expansion that lets `</name>` match. -/
def splitOnFirst (needle : List Char) : List Char → Option (List Char × List Char)
  | [] => none
  | c :: rest =>
    if needle.isPrefixOf (c :: rest) then
      some ([], (c :: rest).drop needle.length)
    else
      match splitOnFirst needle rest with
      | some (pre, post) => some (c :: pre, post)
      | none => none

/-- Greedy backtracking over the captured tag-name length in
`<([A-Z][a-zA-Z0-9]*)[^>]*>(.*?)</\1>`: the engine first captures the longest
`[A-Z][a-zA-Z0-9]*` name and, when the matching closing tag `</\1>` is found
nowhere after the opening tag, gives alphanumeric characters back one at a
time (they are then absorbed by `[^>]*`).  `c` is the mandatory uppercase
first letter, `run` the maximal alphanumeric run after it, `body` everything
after the first `>`, and `k` how many characters of `run` are still part of
the name.  Returns (capture group 2, suffix after the whole match). -/
def tagTry (c : Char) (run body : List Char) : Nat → Option (List Char × List Char)
  | 0 => splitOnFirst ('<' :: '/' :: c :: '>' :: []) body
  | k + 1 =>
    match splitOnFirst ('<' :: '/' :: c :: (run.take (k + 1) ++ ['>'])) body with
    | some res => some res
    | none => tagTry c run body k

/-- One attempted match of `_TAG_WITH_CONTENT` at the current position: the `>`
closing the opening tag is necessarily the first `>` after the `<` (neither
the name class nor `[^>]*` can match `>`), and the closing tag is searched
lazily with name backtracking (`tagTry`). -/
def tagMatch : List Char → Option (List Char × List Char)
  | a :: c :: rest =>
    if a = '<' && isUpperAZ c then
      match rest.dropWhile (fun d => d != '>') with
      | _ :: body => tagTry c (rest.takeWhile isAlnumAZ) body (rest.takeWhile isAlnumAZ).length
      | [] => none
    else none
  | _ => none

/-- The scanner of `re.sub(_TAG_WITH_CONTENT, r"\2", s)`: a match is replaced
by its capture group 2, which is not rescanned within the same pass (the
source re-applies the substitution in a loop precisely for that reason). -/
def subTagGo : Nat → List Char → List Char
  | 0, s => s
  | _ + 1, [] => []
  | fuel + 1, c :: rest =>
    match tagMatch (c :: rest) with
    | some (g2, after) => g2 ++ subTagGo fuel after
    | none => c :: subTagGo fuel rest

/-- One pass of `self._TAG_WITH_CONTENT.sub(r"\2", result)`. -/
def subTag (s : List Char) : List Char :=
  subTagGo (s.length + 1) s

/-- The `while prev_result != result` loop of `MdxConverter.convert`: re-apply
the paired-tag substitution until a fixpoint.  A productive pass strictly
shortens the string (each match is replaced by its capture group, which is
shorter by both tags), so at most `length` productive passes can happen and
the counter `length + 1` never runs out before the fixpoint is reached. -/
def stripTagsLoop : Nat → List Char → List Char
  | 0, s => s
  | n + 1, s => if subTag s = s then s else stripTagsLoop n (subTag s)

/-- The fixpoint of the paired-tag substitution, as computed by the source's
while loop. -/
def stripTags (s : List Char) : List Char :=
  stripTagsLoop (s.length + 1) s

/-- `re.sub(r"\n{3,}", "\n\n", s)`: every maximal run of three or more
newlines becomes exactly two; shorter runs pass through. -/
def collapseNewlinesGo : Nat → List Char → List Char
  | 0, s => s
  | _ + 1, [] => []
  | fuel + 1, c :: rest =>
    if c = '\n' then
      let run := rest.takeWhile (fun d => d == '\n')
      let after := rest.dropWhile (fun d => d == '\n')
      if run.length + 1 ≥ 3 then '\n' :: '\n' :: collapseNewlinesGo fuel after
      else (c :: run) ++ collapseNewlinesGo fuel after
    else c :: collapseNewlinesGo fuel rest

/-- `re.sub(r"\n{3,}", "\n\n", s)`. -/
def collapseNewlines (s : List Char) : List Char :=
  collapseNewlinesGo (s.length + 1) s

/-- Python `str.strip()`: remove leading and trailing whitespace. -/
def pyStrip (s : List Char) : List Char :=
  ((s.dropWhile isSpace).reverse.dropWhile isSpace).reverse

/-- Python `str.rstrip()`: remove trailing whitespace only (used to state the
spec's claimed output shape for comparison). -/
def pyRstrip (s : List Char) : List Char :=
  (s.reverse.dropWhile isSpace).reverse

/-- `MdxConverter.convert` (converters/mdx.py): strip import statements, strip
export statements, strip self-closing JSX tags, repeatedly strip paired JSX
tags keeping their content, collapse runs of three or more newlines to two,
strip surrounding whitespace and append exactly one newline.  The
`source_path` argument of the source is unused by it and omitted here. -/
def mdxConvert (content : List Char) : List Char :=
  let r1 := subStmt impKw content
  let r2 := subStmt expKw r1
  let r3 := subSelfClosing r2
  let r4 := stripTags r3
  let r5 := collapseNewlines r4
  pyStrip r5 ++ ['\n']

/-- The output shape asserted by the spec sentence behind claim C2, rendered
word for word: the content with newline runs collapsed, TRAILING whitespace
stripped, and one trailing newline.  (The source strips leading whitespace as
well; this definition exists to be compared against `mdxConvert`.) -/
def c2ClaimedShape (content : List Char) : List Char :=
  pyRstrip (collapseNewlines content) ++ ['\n']

/-- The character class `[=\-*]` of the RST underline pattern. -/
def isUnderline (c : Char) : Bool :=
  c = '=' || c = '-' || c = '*'

/-- `re.search(r"^(.+)\n[=\-*]+\n", s, re.MULTILINE)`: tried at each line
start.  `(.+)` cannot cross a newline, so it greedily takes the whole line and
no shorter expansion can satisfy the following `\n`; the underline run is then
forced to be the whole next line, which must be nonempty, consist only of
underline characters and be terminated by a further newline.  Returns capture
group 1 of the first line where this succeeds. -/
def rstSearchGo : Nat → List Char → Option (List Char)
  | 0, _ => none
  | _ + 1, [] => none
  | fuel + 1, c :: rest =>
    let l1 := (c :: rest).takeWhile (fun d => d != '\n')
    match (c :: rest).dropWhile (fun d => d != '\n') with
    | _ :: r2 =>
      if l1.isEmpty then rstSearchGo fuel r2
      else
        let u := r2.takeWhile isUnderline
        match r2.dropWhile isUnderline with
        | c2 :: _ =>
          if !u.isEmpty && c2 == '\n' then some l1 else rstSearchGo fuel r2
        | [] => rstSearchGo fuel r2
    | [] => none

/-- `re.search` for the RST underline title pattern. -/
def rstSearch (s : List Char) : Option (List Char) :=
  rstSearchGo (s.length + 1) s

/-- One attempted match of `^X\s+(.+)$` (`re.MULTILINE`) at a line start,
where `X` is the literal marker (`#` for Markdown, `=` for AsciiDoc).  `\s+`
is greedy and may cross newlines; when no non-newline character follows the
maximal whitespace run (so the greedy `(.+)` has nothing), the engine gives
whitespace characters back to `(.+)` one at a time; the first one that can be
given back is the run's last non-newline character (everything after it inside
the run is newlines, which `(.+)` cannot take), leaving a one-character
capture.  At least one whitespace character must stay with `\s+`. -/
def headTryAt (mark : Char) : List Char → Option (List Char)
  | [] => none
  | c :: t =>
    if c = mark then
      let w := t.takeWhile isSpace
      let afterW := t.dropWhile isSpace
      if w.isEmpty then none
      else
        let grp := afterW.takeWhile (fun d => d != '\n')
        if !grp.isEmpty then some grp
        else
          match (w.drop 1).reverse.dropWhile (fun d => d == '\n') with
          | b :: _ => some [b]
          | [] => none
    else none

/-- `re.search(r"^X\s+(.+)$", s, re.MULTILINE)`: the attempt of `headTryAt`
at every line start, first success wins.  (Line starts lying inside a failed
attempt's whitespace run begin with a whitespace character, never with the
marker, so trying them too is harmless and faithful.) -/
def headSearchGo (mark : Char) : Nat → List Char → Option (List Char)
  | 0, _ => none
  | _ + 1, [] => none
  | fuel + 1, c :: rest =>
    match headTryAt mark (c :: rest) with
    | some g => some g
    | none =>
      match (c :: rest).dropWhile (fun d => d != '\n') with
      | _ :: r2 => headSearchGo mark fuel r2
      | [] => none

/-- `re.search` for a single-marker heading pattern. -/
def headSearch (mark : Char) (s : List Char) : Option (List Char) :=
  headSearchGo mark (s.length + 1) s

/-- `pathlib.PurePath.stem`: the final path component without its last suffix;
the suffix's dot counts only when it is neither the first nor the last
character of the component's name. -/
def pathStem (p : String) : String :=
  let nm := (p.toList.reverse.takeWhile (fun d => d != '/')).reverse
  let rev := nm.reverse
  let suf := rev.takeWhile (fun d => d != '.')
  if suf.length < rev.length ∧ 0 < suf.length ∧ suf.length + 1 < rev.length then
    String.mk (rev.drop (suf.length + 1)).reverse
  else String.mk nm

/-- ASCII letter (the cased characters of the inputs considered here). -/
def isAsciiAlpha (c : Char) : Bool :=
  ('a' ≤ c && c ≤ 'z') || ('A' ≤ c && c ≤ 'Z')

/-- Python `str.title()` on ASCII input: a letter is uppercased when the
previous character is not a letter, lowercased otherwise. -/
def pyTitleGo : Bool → List Char → List Char
  | _, [] => []
  | prevCased, c :: rest =>
    if isAsciiAlpha c then
      (if prevCased then c.toLower else c.toUpper) :: pyTitleGo true rest
    else c :: pyTitleGo false rest

/-- Python `str.title()`. -/
def pyTitle (s : List Char) : List Char :=
  pyTitleGo false s

/-- `str.replace(a, b)` for single characters. -/
def replaceChar (a b : Char) (s : List Char) : List Char :=
  s.map (fun c => if c = a then b else c)

/-- The filename fallback of `GitExtractor._extract_title`: the path's stem
with `_` and then `-` replaced by spaces, title-cased. -/
def fallbackTitle (filePath : String) : String :=
  String.mk (pyTitle (replaceChar '-' ' ' (replaceChar '_' ' ' (pathStem filePath).toList)))

/-- `GitExtractor._extract_title` on successfully read content: only the first
2000 characters are scanned; the RST underline pattern, the Markdown `#`
heading and the AsciiDoc `=` heading are tried in that order, each winner
stripped of surrounding whitespace; otherwise the filename fallback. -/
def extractTitleFromContent (content : String) (filePath : String) : String :=
  let first := content.toList.take 2000
  match rstSearch first with
  | some t => String.mk (pyStrip t)
  | none =>
    match headSearch '#' first with
    | some t => String.mk (pyStrip t)
    | none =>
      match headSearch '=' first with
      | some t => String.mk (pyStrip t)
      | none => fallbackTitle filePath

/-- The one exception class `_extract_title` catches around its file read. -/
inductive ReadError where
  | osError (msg : String)

/-- `GitExtractor._extract_title` including the `try`/`except OSError` that
wraps the file read: a read failure falls through to the filename fallback
(the regex searches inside the `try` cannot raise). -/
def extractTitleResult (readResult : Except ReadError String) (filePath : String) : String :=
  match readResult with
  | Except.ok content => extractTitleFromContent content filePath
  | Except.error _ => fallbackTitle filePath

/-- `IdentityConverter.convert` (converters/identity.py). -/
def identityConvert (_sourcePath : String) (content : String) : String :=
  content

/-- `AsciidocConverter.convert` (converters/asciidoc.py). -/
def asciidocConvert (_sourcePath : String) (content : String) : String :=
  content

/-- `DocumentInfo` (extractors/base.py): one discovered source file. -/
structure DocumentInfo where
  source_path : String
  title : String
  format : String
deriving DecidableEq

/-- One value of the manifest's `documents` mapping (download_docs.py lines
198-203). -/
structure ManifestEntry where
  source_path : String
  title : String
  file : String
  size_bytes : Nat
deriving DecidableEq

/-- The two exception classes `extract_project`'s loop catches per document:
`ConversionError` and `OSError`. -/
inductive DocFailure where
  | conversionError (msg : String)
  | osError (msg : String)

/-- The parts of `extract_project`'s metadata dictionary the claims are about;
the remaining fields (corpus, project, source_url, version, license,
converter, extraction_date) are constants of a run and play no role. -/
structure Manifest where
  total_documents : Nat
  documents : List (String × ManifestEntry)
deriving DecidableEq

/-- Python dict assignment `d[k] = v`: overwrite the value in place when the
key is present, else append at the end (insertion order preserved). -/
def dictInsert (k : String) (v : ManifestEntry) :
    List (String × ManifestEntry) → List (String × ManifestEntry)
  | [] => [(k, v)]
  | (k', v') :: rest =>
    if k' = k then (k', v) :: rest else (k', v') :: dictInsert k v rest

/-- The manifest entry recorded for a successfully converted document, given
the output file name and size returned by `convert_document`. -/
def entryFor (d : DocumentInfo) (name : String) (sz : Nat) : ManifestEntry :=
  { source_path := d.source_path, title := d.title,
    file := "docs/" ++ name, size_bytes := sz }

/-- Whether `convert_document`'s outcome for a document is a success. -/
def convOk (f : DocumentInfo → Except DocFailure (String × Nat))
    (d : DocumentInfo) : Bool :=
  match f d with
  | Except.ok _ => true
  | Except.error _ => false

/-- The per-document loop of `extract_project` (download_docs.py lines
188-209): `convert_document` reads, converts and writes one document — since
it performs file I/O its outcome (output file name and size, or a raised
`ConversionError`/`OSError`) is the parameter `f` — and on success a manifest
entry keyed by the source path's stem is inserted and the counter
incremented; on either caught failure the document is skipped and the batch
continues with the remaining documents. -/
def extractLoop (f : DocumentInfo → Except DocFailure (String × Nat)) :
    List DocumentInfo → List (String × ManifestEntry) → Nat →
    List (String × ManifestEntry) × Nat
  | [], dict, n => (dict, n)
  | d :: ds, dict, n =>
    match f d with
    | Except.ok (name, sz) =>
      extractLoop f ds (dictInsert (pathStem d.source_path) (entryFor d name sz) dict) (n + 1)
    | Except.error _ => extractLoop f ds dict n

/-- Python list slicing `l[:m]` for an int `m`: a negative stop counts from
the end, clamped at zero. -/
def pySliceTo (m : Int) (l : List DocumentInfo) : List DocumentInfo :=
  if 0 ≤ m then l.take m.toNat else l.take ((l.length : Int) + m).toNat

/-- The document-count cap of `extract_project` (lines 183-185):
`if max_docs and len(documents) > max_docs: documents = documents[:max_docs]`.
`max_docs` is `int | None`; `None` and `0` are falsy, every other int truthy. -/
def truncateDocs (maxDocs : Option Int) (docs : List DocumentInfo) : List DocumentInfo :=
  match maxDocs with
  | none => docs
  | some m => if m ≠ 0 ∧ (docs.length : Int) > m then pySliceTo m docs else docs

/-- `extract_project` (download_docs.py lines 125-221) restricted to its
manifest accumulation: apply the document cap to the listed documents, run the
conversion loop from the empty `documents` mapping and a zero counter, and
record the final counter as `total_documents`. -/
def extractProject (f : DocumentInfo → Except DocFailure (String × Nat))
    (docs : List DocumentInfo) (maxDocs : Option Int) : Manifest :=
  let processed := truncateDocs maxDocs docs
  let r := extractLoop f processed [] 0
  { total_documents := r.2, documents := r.1 }

/-- The keys of the `documents` mapping. -/
def keysOf (l : List (String × ManifestEntry)) : List String :=
  l.map Prod.fst

/-- The stems of the documents of a list that convert successfully, in order. -/
def successKeys (f : DocumentInfo → Except DocFailure (String × Nat))
    (ds : List DocumentInfo) : List String :=
  (ds.filter (convOk f)).map (fun d => pathStem d.source_path)

/-- The git commands `GitExtractor.fetch_source` can run, with their
configuration-derived arguments (extractors/git_clone.py lines 71-132). -/
inductive GitCommand where
  | cloneSparse (url dir : String)
  | sparseCheckoutSet (paths : List String)
  | cloneShallow (url dir : String)
  | fetchTag (tag : String)
  | checkout (ref : String)
deriving DecidableEq

/-- The configuration of `GitExtractor`. -/
structure GitExtractorCfg where
  repo_url : String
  sparse_paths : Option (List String)
  version_tag : Option String

/-- Python truthiness of `self.sparse_paths` (`None` and `[]` are falsy). -/
def sparseTruthy (o : Option (List String)) : Bool :=
  match o with
  | some (_ :: _) => true
  | _ => false

/-- Python truthiness of `self.version_tag` (`None` and `""` are falsy). -/
def tagTruthy (o : Option String) : Bool :=
  match o with
  | some s => !s.isEmpty
  | none => false

/-- `GitExtractor.fetch_source` (git_clone.py lines 44-69) over an abstract
file system, given as the list of existing directories: compute
`work_dir / "repo"`; when it already exists return it at once with no command
run; otherwise run the sparse or shallow clone (plus the tag fetch/checkout
when a version tag is configured) and return the path.  A successful clone
creates the repo directory, so it is added to the file system (git semantics;
a failing clone raises and `fetch_source` returns nothing).  Result: (root
path, commands run, directories existing afterwards). -/
def fetchSource (g : GitExtractorCfg) (dirs : List String) (workDir : String) :
    String × List GitCommand × List String :=
  let repoDir := workDir ++ "/repo"
  if dirs.contains repoDir then (repoDir, [], dirs)
  else
    let cloneCmds :=
      if sparseTruthy g.sparse_paths then
        [GitCommand.cloneSparse g.repo_url repoDir,
         GitCommand.sparseCheckoutSet (g.sparse_paths.getD [])]
      else [GitCommand.cloneShallow g.repo_url repoDir]
    let tagCmds :=
      if tagTruthy g.version_tag then
        [GitCommand.fetchTag (g.version_tag.getD ""),
         GitCommand.checkout (g.version_tag.getD "")]
      else []
    (repoDir, cloneCmds ++ tagCmds, repoDir :: dirs)

/-- Two documents from distinct directories whose filenames share the stem
`x` — the collision case the manifest key scheme does not separate. -/
def colDocA : DocumentInfo :=
  { source_path := "a/x.md", title := "A", format := "md" }

/-- See `colDocA`. -/
def colDocB : DocumentInfo :=
  { source_path := "b/x.md", title := "B", format := "md" }

/-- A conversion outcome where every document succeeds. -/
def colConvert : DocumentInfo → Except DocFailure (String × Nat) :=
  fun _ => Except.ok ("out.md", 1)

/-- Five documents with pairwise distinct stems. -/
def exDocs5 : List DocumentInfo :=
  [{ source_path := "a.md", title := "A", format := "md" },
   { source_path := "b.md", title := "B", format := "md" },
   { source_path := "c.md", title := "C", format := "md" },
   { source_path := "d.md", title := "D", format := "md" },
   { source_path := "e.md", title := "E", format := "md" }]

/-- The third document of `exDocs5`, the one whose conversion fails under
`exConvert5`. -/
def exDoc3 : DocumentInfo :=
  { source_path := "c.md", title := "C", format := "md" }

/-- A conversion outcome failing exactly on `c.md` with a ConversionError. -/
def exConvert5 : DocumentInfo → Except DocFailure (String × Nat) :=
  fun d =>
    if d.source_path = "c.md" then Except.error (DocFailure.conversionError "tool failed")
    else Except.ok (d.source_path, 10)

/-- A single concrete document. -/
def sampleDoc : DocumentInfo :=
  { source_path := "a.md", title := "A", format := "md" }

/-- A concrete extractor configuration. -/
def sampleGit : GitExtractorCfg :=
  { repo_url := "https://example.org/r.git", sparse_paths := none,
    version_tag := none }

theorem extractLoop_count (f : DocumentInfo → Except DocFailure (String × Nat)) :
    ∀ (ds : List DocumentInfo) (dict : List (String × ManifestEntry)) (n : Nat),
    (extractLoop f ds dict n).2 = n + (ds.filter (convOk f)).length := by
  intro ds
  induction ds with
  | nil => intro dict n; simp [extractLoop]
  | cons d ds ih =>
    intro dict n
    cases hf : f d with
    | ok v =>
      cases v with
      | mk name sz =>
        simp only [extractLoop, hf]
        rw [ih]
        simp [List.filter_cons, convOk, hf]
        omega
    | error e =>
      simp only [extractLoop, hf]
      rw [ih]
      simp [List.filter_cons, convOk, hf]

theorem mem_dictInsert (k : String) (v : ManifestEntry)
    (l : List (String × ManifestEntry)) (kv : String × ManifestEntry)
    (h : kv ∈ dictInsert k v l) : kv = (k, v) ∨ kv ∈ l := by
  induction l with
  | nil => simpa [dictInsert] using h
  | cons p rest ih =>
    by_cases hk : p.1 = k
    · rw [show p = (p.1, p.2) from rfl] at h
      simp only [dictInsert, if_pos hk] at h
      rcases List.mem_cons.mp h with h' | h'
      · left; rw [h', hk]
      · right; exact List.mem_cons_of_mem _ h'
    · rw [show p = (p.1, p.2) from rfl] at h
      simp only [dictInsert, if_neg hk] at h
      rcases List.mem_cons.mp h with h' | h'
      · right; rw [h']; exact List.mem_cons_self _ _
      · rcases ih h' with h'' | h''
        · left; exact h''
        · right; exact List.mem_cons_of_mem _ h''

theorem extractLoop_mem (f : DocumentInfo → Except DocFailure (String × Nat)) :
    ∀ (ds : List DocumentInfo) (dict : List (String × ManifestEntry)) (n : Nat)
      (kv : String × ManifestEntry), kv ∈ (extractLoop f ds dict n).1 →
    kv ∈ dict ∨ ∃ d, d ∈ ds ∧ ∃ name sz, f d = Except.ok (name, sz) ∧
      kv = (pathStem d.source_path, entryFor d name sz) := by
  intro ds
  induction ds with
  | nil => intro dict n kv h; left; simpa [extractLoop] using h
  | cons d ds ih =>
    intro dict n kv h
    cases hf : f d with
    | ok v =>
      cases v with
      | mk name sz =>
        simp only [extractLoop, hf] at h
        rcases ih _ _ _ h with hmem | ⟨d', hd', name', sz', hok, hkv⟩
        · rcases mem_dictInsert _ _ _ _ hmem with heq | hdict
          · right; exact ⟨d, List.mem_cons_self _ _, name, sz, hf, heq⟩
          · left; exact hdict
        · right; exact ⟨d', List.mem_cons_of_mem _ hd', name', sz', hok, hkv⟩
    | error e =>
      simp only [extractLoop, hf] at h
      rcases ih _ _ _ h with hmem | ⟨d', hd', hrest⟩
      · left; exact hmem
      · right; exact ⟨d', List.mem_cons_of_mem _ hd', hrest⟩

theorem dictInsert_notMem (k : String) (v : ManifestEntry) :
    ∀ (l : List (String × ManifestEntry)), k ∉ keysOf l →
    dictInsert k v l = l ++ [(k, v)] := by
  intro l
  induction l with
  | nil => intro _; rfl
  | cons p rest ih =>
    intro h
    have hk : p.1 ≠ k := by
      intro he; exact h (by simp [keysOf, he])
    rw [show p = (p.1, p.2) from rfl]
    simp only [dictInsert, if_neg hk]
    rw [ih (fun hm => h (by simp [keysOf] at hm ⊢; right; exact hm))]
    simp

theorem extractLoop_length_nodup (f : DocumentInfo → Except DocFailure (String × Nat)) :
    ∀ (ds : List DocumentInfo) (dict : List (String × ManifestEntry)) (n : Nat),
    (successKeys f ds).Nodup →
    (∀ k, k ∈ successKeys f ds → k ∉ keysOf dict) →
    (extractLoop f ds dict n).1.length = dict.length + (ds.filter (convOk f)).length := by
  intro ds
  induction ds with
  | nil => intro dict n _ _; simp [extractLoop]
  | cons d ds ih =>
    intro dict n hnd hdisj
    cases hf : f d with
    | ok v =>
      cases v with
      | mk name sz =>
        have hcons : successKeys f (d :: ds)
            = pathStem d.source_path :: successKeys f ds := by
          simp [successKeys, List.filter_cons, convOk, hf]
        rw [hcons] at hnd hdisj
        have hhead : pathStem d.source_path ∉ keysOf dict :=
          hdisj _ (List.mem_cons_self _ _)
        have htail : (successKeys f ds).Nodup := (List.nodup_cons.mp hnd).2
        have hne : pathStem d.source_path ∉ successKeys f ds :=
          (List.nodup_cons.mp hnd).1
        simp only [extractLoop, hf]
        rw [dictInsert_notMem _ _ _ hhead]
        rw [ih _ _ htail ?hdisj]
        case hdisj =>
          intro k hk
          simp only [keysOf, List.map_append, List.map_cons, List.map_nil,
            List.mem_append, List.mem_cons]
          rintro (hkd | hke)
          · exact hdisj k (List.mem_cons_of_mem _ hk) hkd
          · rcases hke with hke | hke
            · exact hne (hke ▸ hk)
            · exact absurd hke (List.not_mem_nil k)
        · simp [List.filter_cons, convOk, hf]
          omega
    | error e =>
      have hcons : successKeys f (d :: ds) = successKeys f ds := by
        simp [successKeys, List.filter_cons, convOk, hf]
      rw [hcons] at hnd hdisj
      simp only [extractLoop, hf]
      rw [ih _ _ hnd hdisj]
      simp [List.filter_cons, convOk, hf]

/-- C1, counterexample: two distinct source paths (`a/x.md`, `b/x.md`) share
the filename stem `x`; with both conversions succeeding, extract_project ends
with `total_documents = 2` while the `documents` mapping holds a single entry
(the second success silently overwrote the first), so the claimed invariant
fails exactly on the collision pattern the claim includes. -/
theorem c1_counterexample :
    colDocA.source_path ≠ colDocB.source_path ∧
    pathStem colDocA.source_path = pathStem colDocB.source_path ∧
    convOk colConvert colDocA = true ∧ convOk colConvert colDocB = true ∧
    (extractProject colConvert [colDocA, colDocB] none).total_documents = 2 ∧
    (extractProject colConvert [colDocA, colDocB] none).documents.length = 1 := by
  refine ⟨by decide, by decide, by decide, by decide, by decide, by decide⟩

/-- C1 (amended): after extract_project, `total_documents` equals the number
of successfully converted documents of the processed list; a document whose
conversion or write failed never contributes an entry to the `documents`
mapping; and whenever the successful documents' filename stems are pairwise
distinct, `total_documents` also equals the number of entries of the mapping.
(When two distinct source paths share a stem, a later success overwrites the
earlier entry and `total_documents` exceeds the mapping's size.) -/
theorem c1_manifest_invariant (f : DocumentInfo → Except DocFailure (String × Nat))
    (docs : List DocumentInfo) (maxDocs : Option Int)
    (hnodup : (successKeys f (truncateDocs maxDocs docs)).Nodup) :
    (extractProject f docs maxDocs).total_documents
      = ((truncateDocs maxDocs docs).filter (convOk f)).length ∧
    (extractProject f docs maxDocs).total_documents
      = (extractProject f docs maxDocs).documents.length ∧
    ∀ kv, kv ∈ (extractProject f docs maxDocs).documents →
      ∃ d, d ∈ truncateDocs maxDocs docs ∧ ∃ name sz,
        f d = Except.ok (name, sz) ∧
        kv = (pathStem d.source_path, entryFor d name sz) := by
  refine ⟨?_, ?_, ?_⟩
  · simpa [extractProject] using extractLoop_count f (truncateDocs maxDocs docs) [] 0
  · have h1 := extractLoop_count f (truncateDocs maxDocs docs) [] 0
    have h2 := extractLoop_length_nodup f (truncateDocs maxDocs docs) [] 0 hnodup
      (by intro k _; simp [keysOf])
    simp only [List.length_nil, Nat.zero_add] at h1 h2
    simp only [extractProject]
    omega
  · intro kv hkv
    rcases extractLoop_mem f (truncateDocs maxDocs docs) [] 0 kv
        (by simpa [extractProject] using hkv) with h | h
    · exact absurd h (List.not_mem_nil kv)
    · exact h

/-- Witness for `c1_manifest_invariant` at the five-document corpus with
pairwise distinct stems. -/
theorem c1_manifest_invariant_witness :
    (successKeys exConvert5 (truncateDocs none exDocs5)).Nodup ∧
    ((extractProject exConvert5 exDocs5 none).total_documents
        = ((truncateDocs none exDocs5).filter (convOk exConvert5)).length ∧
      (extractProject exConvert5 exDocs5 none).total_documents
        = (extractProject exConvert5 exDocs5 none).documents.length ∧
      ∀ kv, kv ∈ (extractProject exConvert5 exDocs5 none).documents →
        ∃ d, d ∈ truncateDocs none exDocs5 ∧ ∃ name sz,
          exConvert5 d = Except.ok (name, sz) ∧
          kv = (pathStem d.source_path, entryFor d name sz)) :=
  ⟨by decide, c1_manifest_invariant exConvert5 exDocs5 none (by decide)⟩

/-- C2, counterexample: the content `" a"` contains no JSX-like tag and no
import/export line (all four substitutions fix it), yet convert returns
`"a\n"` — the leading space is stripped too (`str.strip()` strips both ends)
— while the claimed shape (trailing whitespace only) would be `" a\n"`. -/
theorem c2_counterexample :
    subStmt impKw " a".toList = " a".toList ∧
    subStmt expKw " a".toList = " a".toList ∧
    subSelfClosing " a".toList = " a".toList ∧
    subTag " a".toList = " a".toList ∧
    mdxConvert " a".toList = "a\n".toList ∧
    mdxConvert " a".toList ≠ c2ClaimedShape " a".toList := by
  refine ⟨by decide, by decide, by decide, by decide, by decide, by decide⟩

/-- C2 (amended): for every content string C that contains no JSX-like tags
and no import/export lines — formalised as C being a fixpoint of each of the
four stripping substitutions, which holds exactly when none of the four
patterns matches — convert returns C with every run of 3 or more consecutive
newlines collapsed to exactly 2, LEADING AND trailing whitespace stripped, and
exactly one trailing newline appended. -/
theorem c2_convert_shape (C : List Char)
    (h1 : subStmt impKw C = C) (h2 : subStmt expKw C = C)
    (h3 : subSelfClosing C = C) (h4 : subTag C = C) :
    mdxConvert C = pyStrip (collapseNewlines C) ++ ['\n'] := by
  simp only [mdxConvert]
  rw [h1, h2, h3]
  unfold stripTags
  simp [stripTagsLoop, h4]

/-- Witness for `c2_convert_shape` on a concrete tag-free content with a long
newline run and surrounding whitespace. -/
theorem c2_convert_shape_witness :
    (subStmt impKw " x\n\n\n\ny z \n".toList = " x\n\n\n\ny z \n".toList ∧
      subStmt expKw " x\n\n\n\ny z \n".toList = " x\n\n\n\ny z \n".toList ∧
      subSelfClosing " x\n\n\n\ny z \n".toList = " x\n\n\n\ny z \n".toList ∧
      subTag " x\n\n\n\ny z \n".toList = " x\n\n\n\ny z \n".toList) ∧
    mdxConvert " x\n\n\n\ny z \n".toList
      = pyStrip (collapseNewlines " x\n\n\n\ny z \n".toList) ++ ['\n'] :=
  ⟨⟨by decide, by decide, by decide, by decide⟩,
    c2_convert_shape _ (by decide) (by decide) (by decide) (by decide)⟩

/-- C3: a per-document failure (ConversionError or OSError from converting or
writing) is skipped without aborting the batch: `total_documents` counts
exactly the successful documents of the processed list, and the failed
document's stem never appears among the manifest keys (as long as no distinct
successful document shares its stem — the stem is the mapping key).
Concretely, for the 5-document corpus where exactly `c.md` fails conversion,
the final manifest has `total_documents = 4`, 4 entries, and no `c` key. -/
theorem c3_failed_document_skipped (f : DocumentInfo → Except DocFailure (String × Nat))
    (docs : List DocumentInfo) (maxDocs : Option Int) (d : DocumentInfo)
    (_hmem : d ∈ truncateDocs maxDocs docs)
    (_hfail : convOk f d = false)
    (hstem : ∀ d', d' ∈ truncateDocs maxDocs docs → convOk f d' = true →
      pathStem d'.source_path ≠ pathStem d.source_path) :
    pathStem d.source_path ∉ keysOf (extractProject f docs maxDocs).documents ∧
    (extractProject f docs maxDocs).total_documents
      = ((truncateDocs maxDocs docs).filter (convOk f)).length ∧
    (extractProject exConvert5 exDocs5 none).total_documents = 4 ∧
    (extractProject exConvert5 exDocs5 none).documents.length = 4 ∧
    pathStem exDoc3.source_path ∉ keysOf (extractProject exConvert5 exDocs5 none).documents := by
  refine ⟨?_, ?_, by decide, by decide, by decide⟩
  · intro hin
    simp only [keysOf, List.mem_map] at hin
    rcases hin with ⟨kv, hkv, hfst⟩
    rcases extractLoop_mem f (truncateDocs maxDocs docs) [] 0 kv
        (by simpa [extractProject] using hkv) with h | ⟨d', hd', name, sz, hok, hkveq⟩
    · exact absurd h (List.not_mem_nil kv)
    · have hok' : convOk f d' = true := by simp [convOk, hok]
      apply hstem d' hd' hok'
      rw [hkveq] at hfst
      simpa using hfst
  · simpa [extractProject] using extractLoop_count f (truncateDocs maxDocs docs) [] 0

/-- Witness for `c3_failed_document_skipped` at the five-document corpus. -/
theorem c3_failed_document_skipped_witness :
    (exDoc3 ∈ truncateDocs none exDocs5 ∧
      convOk exConvert5 exDoc3 = false ∧
      ∀ d', d' ∈ truncateDocs none exDocs5 → convOk exConvert5 d' = true →
        pathStem d'.source_path ≠ pathStem exDoc3.source_path) ∧
    (pathStem exDoc3.source_path
        ∉ keysOf (extractProject exConvert5 exDocs5 none).documents ∧
      (extractProject exConvert5 exDocs5 none).total_documents
        = ((truncateDocs none exDocs5).filter (convOk exConvert5)).length) :=
  ⟨⟨by decide, by decide, by decide⟩,
    ⟨(c3_failed_document_skipped exConvert5 exDocs5 none exDoc3
        (by decide) (by decide) (by decide)).1,
      (c3_failed_document_skipped exConvert5 exDocs5 none exDoc3
        (by decide) (by decide) (by decide)).2.1⟩⟩

/-- C4: on `"<Outer><Inner>text</Inner></Outer>"` the repeated-pass paired-tag
stripping fully unwraps the nested uppercase tags to `"text"` (the convert
result is `"text\n"` after the final strip-and-newline step), and re-running
convert on the produced output returns that output unchanged. -/
theorem c4_nested_unwrap_idempotent :
    stripTags "<Outer><Inner>text</Inner></Outer>".toList = "text".toList ∧
    mdxConvert "<Outer><Inner>text</Inner></Outer>".toList = "text\n".toList ∧
    mdxConvert (mdxConvert "<Outer><Inner>text</Inner></Outer>".toList)
      = mdxConvert "<Outer><Inner>text</Inner></Outer>".toList := by
  refine ⟨by decide, by decide, by decide⟩

/-- C5: convert on `"import Foo from 'x'\n# Title\n<Box>hi</Box>\n"` strips
the import line, unwraps the `<Box>` pair, collapses the blank lines and
leaves exactly one trailing newline: the result is `"# Title\nhi\n"`. -/
theorem c5_convert_example :
    mdxConvert "import Foo from 'x'\n# Title\n<Box>hi</Box>\n".toList
      = "# Title\nhi\n".toList := by
  decide

/-- C6: title extraction returns `"Hello"` for the RST underline input,
`"Heading"` for the Markdown ATX input, and for a file named
`my_doc-name.rst` whose content matches no heading pattern it returns the
filename-derived `"My Doc Name"`. -/
theorem c6_title_examples :
    extractTitleFromContent "Hello\n=====\nbody" "docs/hello.rst" = "Hello" ∧
    extractTitleFromContent "# Heading\nbody" "docs/heading.md" = "Heading" ∧
    extractTitleFromContent "plain body text with no heading" "my_doc-name.rst"
      = "My Doc Name" := by
  refine ⟨by decide, by decide, by decide⟩

/-- C7: when `work_dir/repo` already exists, fetch_source returns that path
with no git command run and the file system unchanged; consequently, whatever
the first call did, a second fetch with the same working directory returns
the same root path and runs no command (no clone, fetch or checkout). -/
theorem c7_fetch_source_idempotent (g : GitExtractorCfg) (dirs dirs0 : List String)
    (workDir : String) (hex : dirs.contains (workDir ++ "/repo") = true) :
    fetchSource g dirs workDir = (workDir ++ "/repo", [], dirs) ∧
    (fetchSource g (fetchSource g dirs0 workDir).2.2 workDir).1
      = (fetchSource g dirs0 workDir).1 ∧
    (fetchSource g (fetchSource g dirs0 workDir).2.2 workDir).2.1 = [] := by
  have hex' : workDir ++ "/repo" ∈ dirs := by simpa using hex
  refine ⟨by simp [fetchSource, hex'], ?_, ?_⟩ <;>
    by_cases h0 : workDir ++ "/repo" ∈ dirs0 <;>
      simp [fetchSource, h0]

/-- Witness for `c7_fetch_source_idempotent` at a concrete working directory
whose repo subdirectory exists. -/
theorem c7_fetch_source_idempotent_witness :
    (["/w/repo"].contains ("/w" ++ "/repo") = true) ∧
    (fetchSource sampleGit ["/w/repo"] "/w" = ("/w" ++ "/repo", [], ["/w/repo"]) ∧
      (fetchSource sampleGit (fetchSource sampleGit [] "/w").2.2 "/w").1
        = (fetchSource sampleGit [] "/w").1 ∧
      (fetchSource sampleGit (fetchSource sampleGit [] "/w").2.2 "/w").2.1 = []) :=
  ⟨by decide, c7_fetch_source_idempotent sampleGit ["/w/repo"] [] "/w" (by decide)⟩

/-- C8: title extraction is total — in this embedding every outcome of the
guarded file read yields a title — and on any read failure the OSError is
swallowed and the result is exactly the filename-derived fallback title. -/
theorem c8_title_extraction_total (e : ReadError) (r : Except ReadError String)
    (filePath : String) :
    extractTitleResult (Except.error e) filePath = fallbackTitle filePath ∧
    (extractTitleResult r filePath = fallbackTitle filePath ∨
      ∃ content, r = Except.ok content ∧
        extractTitleResult r filePath = extractTitleFromContent content filePath) := by
  refine ⟨rfl, ?_⟩
  cases r with
  | ok c => right; exact ⟨c, rfl, rfl⟩
  | error e' => left; rfl

/-- C9: for every source path and every content string, both the identity
(Markdown) converter and the AsciiDoc passthrough converter return the
content unchanged. -/
theorem c9_passthrough_identity (p : String) (c : String) :
    identityConvert p c = c ∧ asciidocConvert p c = c :=
  ⟨rfl, rfl⟩

/-- C10, counterexample: with `max_docs = -1` (an int the signature admits)
and a single listed document, the cap condition `max_docs and len(documents) >
max_docs` holds (−1 is truthy and 1 > −1) and the slice `documents[:-1]`
drops the document — truncation occurred although `max_docs` is not a
positive integer, refuting the claim's "only when positive". -/
theorem c10_counterexample :
    truncateDocs (some (-1)) [sampleDoc] = [] ∧
    truncateDocs (some (-1)) [sampleDoc] ≠ [sampleDoc] ∧
    ¬(0 < (-1 : Int)) := by
  refine ⟨by decide, by decide, by decide⟩

/-- C10 (amended): the cap truncates exactly when `max_docs` is a nonzero
integer smaller than the document count: absent (`None`) or `0` means no
truncation (truthiness test); a positive `max_docs` smaller than the count
keeps exactly the first `max_docs` documents in enumeration order (and a
positive cap at least the count leaves the list whole); a negative
`max_docs` always truncates a nonempty list, Python slicing keeping all but
the last `|max_docs|` documents. -/
theorem c10_cap_behavior (p n : Int) (docs big small : List DocumentInfo)
    (hp : 0 < p) (hn : n < 0)
    (hbig : (big.length : Int) > p) (hsmall : (small.length : Int) ≤ p) :
    truncateDocs none docs = docs ∧
    truncateDocs (some 0) docs = docs ∧
    truncateDocs (some p) big = big.take p.toNat ∧
    truncateDocs (some p) small = small ∧
    truncateDocs (some n) docs = docs.take ((docs.length : Int) + n).toNat := by
  refine ⟨rfl, by simp [truncateDocs], ?_, ?_, ?_⟩
  · have hne : p ≠ 0 := by omega
    simp [truncateDocs, hne, hbig, pySliceTo, hp.le]
  · simp only [truncateDocs]
    rw [if_neg]
    rintro ⟨-, hgt⟩
    omega
  · have hne : n ≠ 0 := by omega
    have hgt : (docs.length : Int) > n := by
      have : (0 : Int) ≤ (docs.length : Int) := Int.natCast_nonneg _
      omega
    have hnn : ¬(0 ≤ n) := by omega
    simp [truncateDocs, hne, hgt, pySliceTo, hnn]

/-- Witness for `c10_cap_behavior` at `p = 1`, `n = -1` and concrete lists. -/
theorem c10_cap_behavior_witness :
    ((0 : Int) < 1 ∧ (-1 : Int) < 0 ∧
      ([sampleDoc, exDoc3].length : Int) > 1 ∧ ([sampleDoc].length : Int) ≤ 1) ∧
    (truncateDocs none [sampleDoc] = [sampleDoc] ∧
      truncateDocs (some 0) [sampleDoc] = [sampleDoc] ∧
      truncateDocs (some 1) [sampleDoc, exDoc3] = [sampleDoc, exDoc3].take (1 : Int).toNat ∧
      truncateDocs (some 1) [sampleDoc] = [sampleDoc] ∧
      truncateDocs (some (-1)) [sampleDoc]
        = [sampleDoc].take ((([sampleDoc].length : Int) + (-1)).toNat)) :=
  ⟨⟨by decide, by decide, by decide, by decide⟩,
    c10_cap_behavior 1 (-1) [sampleDoc] [sampleDoc, exDoc3] [sampleDoc]
      (by decide) (by decide) (by decide) (by decide)⟩

end RagEval
